import Mathlib

/-!
Verification of the Sanayi-Marketi data-scraper's heuristic core.

Python strings are modelled as `List Char` (one entry per Unicode code
point, matching Python's `str` indexing and `len`).  Pure helper
functions (`str.lower`, substring tests, `urllib` path splitting, …)
are embedded as executable Lean functions; each embedded definition
keeps the name of the Python function it is translated from.
-/

set_option maxRecDepth 10000

namespace Scraper

/-! ### Python string primitives -/

/-- Python's `needle in hay` substring test. -/
def pyIn (needle hay : List Char) : Bool := decide (needle <:+: hay)

/-- Python's `s.startswith(pre)`. -/
def pyStartswith (s pre : List Char) : Bool := decide (pre <+: s)

/-- Python's `s.endswith(suf)`. -/
def pyEndswith (s suf : List Char) : Bool := decide (suf <:+ s)

/-- ASCII decimal digit (models `\d` of Python's `re` for the ASCII
inputs handled by this code base). -/
def isAsciiDigit (c : Char) : Bool := '0' ≤ c && c ≤ '9'

/-- Python `str.isspace` / `\s`, restricted to the ASCII whitespace
characters that occur in the scraped text handled here. -/
def isPySpace (c : Char) : Bool :=
  c = ' ' || c = '\t' || c = '\n' || c = '\x0d' || c = '\x0b' || c = '\x0c'

/-- Word character for Python's `\b` boundaries: ASCII alphanumerics,
underscore, and the Turkish letters used by the keyword lists. -/
def isWordChar (c : Char) : Bool :=
  isAsciiDigit c || ('a' ≤ c && c ≤ 'z') || ('A' ≤ c && c ≤ 'Z') || c = '_' ||
  c = 'ç' || c = 'ğ' || c = 'ı' || c = 'ö' || c = 'ş' || c = 'ü' ||
  c = 'Ç' || c = 'Ğ' || c = 'İ' || c = 'Ö' || c = 'Ş' || c = 'Ü'

/-- Python `str.lower` on one character.  Like CPython (which does not
apply Turkish locale rules), `'İ'` lowercases to the two code points
`'i'` + combining dot above (U+0307); ASCII and the Turkish letters
used in this repository are mapped; other characters are left as-is. -/
def pyLowerChar (c : Char) : List Char :=
  if c = 'İ' then ['i', '̇']
  else if 'A' ≤ c && c ≤ 'Z' then [Char.ofNat (c.toNat + 32)]
  else if c = 'Ç' then ['ç']
  else if c = 'Ğ' then ['ğ']
  else if c = 'Ö' then ['ö']
  else if c = 'Ş' then ['ş']
  else if c = 'Ü' then ['ü']
  else [c]

/-- Python `str.lower`. -/
def pyLower (s : List Char) : List Char := (s.map pyLowerChar).flatten

/-- Python `str.strip()` (no argument: strips whitespace at both ends). -/
def pyStrip (s : List Char) : List Char :=
  ((s.dropWhile isPySpace).reverse.dropWhile isPySpace).reverse

/-- Hex digit as used by `urllib.parse.unquote` escapes. -/
def isHexDigit (c : Char) : Bool :=
  isAsciiDigit c || ('a' ≤ c && c ≤ 'f') || ('A' ≤ c && c ≤ 'F')

def hexVal (c : Char) : Nat :=
  if isAsciiDigit c then c.toNat - '0'.toNat
  else if 'a' ≤ c && c ≤ 'f' then c.toNat - 'a'.toNat + 10
  else c.toNat - 'A'.toNat + 10

/-- `urllib.parse.unquote`, modelled for single-byte (ASCII) percent
escapes: `%XX` with two hex digits decodes to the character with that
code; everything else is kept verbatim. -/
def pyUnquote : List Char → List Char
  | '%' :: a :: b :: rest =>
    if isHexDigit a && isHexDigit b then
      Char.ofNat (hexVal a * 16 + hexVal b) :: pyUnquote rest
    else '%' :: pyUnquote (a :: b :: rest)
  | c :: rest => c :: pyUnquote rest
  | [] => []
termination_by s => s.length
decreasing_by all_goals (simp [List.length]; try omega)

/-- Helper for `pyUrlPath`: position after the first `"://"`. -/
def afterSchemeSep : List Char → Option (List Char)
  | ':' :: '/' :: '/' :: r => some r
  | _ :: r => afterSchemeSep r
  | [] => none

/-- `urllib.parse.urlparse(url).path` for the absolute
`scheme://netloc/path?query#fragment` URLs this scraper handles:
the fragment and query are cut off, and for a URL with a
`"://"` authority part the path starts at the first `'/'` after the
authority (empty if there is none). -/
def pyUrlPath (url : List Char) : List Char :=
  let noFrag := url.takeWhile (· ≠ '#')
  let noQuery := noFrag.takeWhile (· ≠ '?')
  match afterSchemeSep noQuery with
  | some r => r.dropWhile (· ≠ '/')
  | none => noQuery

/-- `os.path.basename` (POSIX): the part after the last `'/'`. -/
def pyBasename (p : List Char) : List Char :=
  (p.reverse.takeWhile (· ≠ '/')).reverse

/-- The root part of `os.path.splitext`: split at the last `'.'`,
except that a name whose part before the last dot is all dots (e.g.
`".pdf"`) has no extension. -/
def pySplitextBase (name : List Char) : List Char :=
  let tail := name.reverse.takeWhile (· ≠ '.')
  if tail.length = name.length then name
  else
    let base := name.take (name.length - tail.length - 1)
    if base.all (· = '.') then name else base

/-! ### Keyword configuration (`config/settings.py`) -/

/-- `PDF_POSITIVE_KEYWORDS` from `config/settings.py`. -/
def PDF_POSITIVE_KEYWORDS : List (List Char) :=
  ["katalog".data, "katalogu".data, "brosur".data, "broşür".data,
   "fiyat-listesi".data, "fiyat_listesi".data,
   "urun-katalogu".data, "ürün-katalogu".data, "fiyat listesi".data,
   "catalog".data, "catalogue".data, "brochure".data, "pricelist".data,
   "price-list".data, "price_list".data,
   "product-catalog".data, "product_catalog".data]

/-- `PDF_NEGATIVE_KEYWORDS` from `config/settings.py`. -/
def PDF_NEGATIVE_KEYWORDS : List (List Char) :=
  ["gizlilik".data, "kvkk".data, "kisisel-veri".data, "kişisel-veri".data, "kisisel_veri".data,
   "sozlesme".data, "sözleşme".data, "kosul".data, "koşul".data, "sart".data, "şart".data,
   "aydinlatma".data, "aydınlatma".data, "cerez".data, "çerez".data, "politika".data, "politikasi".data,
   "kullanim-sartlari".data, "kullanim-kosullari".data,
   "privacy".data, "policy".data, "terms".data, "conditions".data, "legal".data, "disclaimer".data,
   "cookie".data, "gdpr".data, "agreement".data, "contract".data, "compliance".data,
   "terms-of-service".data, "terms-of-use".data, "privacy-policy".data,
   "etik".data, "davranis".data, "davranış".data, "finansal".data, "faaliyet-rapor".data,
   "surdurulebilirlik".data, "sürdürülebilirlik".data, "sustainability".data,
   "annual-report".data, "investor".data, "yatirimci".data,
   "vizyon".data, "misyon".data, "degerler".data, "değerler".data, "kurumsal".data,
   "sertifika".data, "certificate".data, "certification".data, "accreditation".data,
   "tse_en".data, "tse-en".data, "ts_en".data, "ts-en".data,
   "iso9001".data, "iso14001".data, "iso45001".data, "iso50001".data, "iso27001".data,
   "iso_9001".data, "iso_14001".data, "iso_45001".data, "iso_50001".data, "iso_27001".data,
   "iso-9001".data, "iso-14001".data, "iso-45001".data, "iso-50001".data, "iso-27001".data,
   "ohsas".data, "ohsas_18001".data, "ohsas-18001".data,
   "ts_13".data, "ts-13".data, "ts13".data, "ts_14".data, "ts-14".data, "ts14".data,
   "onay".data, "onayı".data, "approval".data,
   "belgesi".data,
   "epd".data, "epd_".data, "epd-".data, "_epd".data, "-epd".data,
   "fdes".data, "fdes_".data, "fdes-".data,
   "upec".data, "wallpec".data, "pec_".data,
   "environmental-product".data, "environmental_product".data,
   "declaration".data, "beyan".data, "performans_beyan".data, "performans-beyan".data,
   "dop".data, "declaration-of-performance".data, "declaration_of_performance".data,
   "rapor".data, "report".data, "annual".data, "yillik".data, "yıllık".data,
   "sunum".data, "presentation".data, "corporate".data, "hakkimizda".data,
   "kariyer".data, "career".data, "insan-kaynaklari".data,
   "test-raporu".data, "test_raporu".data, "muayene".data, "deneyi".data, "deney".data,
   "prosedur".data, "prosedür".data, "procedure".data, "prosedurel".data,
   "sikayet".data, "şikayet".data, "complaint".data,
   "mekanizma".data, "mechanism".data,
   "matris".data, "matrisi".data, "matrix".data,
   "paydas".data, "paydaş".data, "stakeholder".data,
   "katilim".data, "katılım".data, "participation".data,
   "iletisim_matrisi".data, "iletişim_matrisi".data,
   "yerli_mali".data, "yerli-mali".data, "yerli_mal".data, "yerli-mal".data,
   "yeterlilik".data, "hizmet_yeterlilik".data,
   "interseroh".data,
   "kullanim-kilavuzu".data, "kullanim_kilavuzu".data, "kullanım-kılavuzu".data,
   "kilavuz".data, "kılavuz".data, "manual".data, "instruction".data, "talimat".data, "talimati".data,
   "montaj".data, "installation".data,
   "basin".data, "basın".data, "press".data, "haber".data, "duyuru".data, "reach".data,
   "entegre_yonetim".data, "entegre-yonetim".data, "yonetim_sistemi".data, "yönetim_sistemi".data,
   "genel_kurul".data, "genel-kurul".data, "genel_kurulun".data, "toplanti_tutanak".data,
   "vekaleten".data, "oy-kullanma".data, "oy_kullanma".data, "vekalet".data,
   "yonetim-kurulu".data, "yonetim_kurulu".data, "yonetici".data,
   "ozgecmis".data, "özgeçmiş".data, "ozgecmisler".data, "özgeçmişler".data,
   "ic_yonerge".data, "ic-yonerge".data, "yonerge".data, "yönerge".data,
   "bagimsizlik".data, "bağımsızlık".data, "bagimsiz".data, "bağımsız".data,
   "esas_sozlesme".data, "esas-sozlesme".data, "esas_sözleşme".data,
   "cevre-ve-iklim".data, "cevre_ve_iklim".data, "cevre-iklim".data, "iklim".data,
   "enerji_yonetimi".data, "enerji-yonetimi".data, "enerji_yonetim".data,
   "karbon".data, "carbon".data, "emisyon".data, "emission".data]

/-- `INVALID_PHONE_STARTS` from `config/settings.py`. -/
def INVALID_PHONE_STARTS : List (List Char) :=
  ["0000".data, "1111".data, "2222".data, "3333".data, "4444".data,
   "5555".data, "6666".data, "7777".data, "8888".data, "9999".data,
   "1234".data, "0123".data, "9876".data, "0900".data, "0800".data]

/-- `VALID_AREA_CODES` from `config/settings.py`. -/
def VALID_AREA_CODES : List (List Char) :=
  ["212".data, "216".data, "312".data, "232".data, "224".data, "242".data,
   "322".data, "342".data, "262".data, "324".data, "352".data, "222".data,
   "258".data, "236".data, "264".data, "362".data, "462".data, "412".data,
   "414".data, "422".data, "442".data, "274".data, "252".data, "284".data,
   "266".data, "372".data, "332".data, "226".data, "288".data, "286".data,
   "256".data, "246".data, "248".data,
   "530".data, "531".data, "532".data, "533".data, "534".data, "535".data,
   "536".data, "537".data, "538".data, "539".data,
   "540".data, "541".data, "542".data, "543".data, "544".data, "545".data,
   "546".data, "547".data, "548".data, "549".data,
   "550".data, "551".data, "552".data, "553".data, "554".data, "555".data,
   "556".data, "557".data, "558".data, "559".data,
   "501".data, "505".data, "506".data, "507".data]

/-! ### URL classifier (`utils/file_downloader.py`) -/

/-- `FileDownloader.should_download_url` (file_downloader.py lines
100-136): lowercase URL and link text, join them with a single space,
reject on the first negative-keyword substring, otherwise approve
(with a note of whether a positive keyword was present).  The Python
code computes `link_text.lower() if link_text else ''`, which equals
`pyLower link_text` in both cases. -/
def should_download_url (url link_text : List Char) : Bool × List Char :=
  let url_lower := pyLower url
  let text_lower := pyLower link_text
  let combined := url_lower ++ ' ' :: text_lower
  match PDF_NEGATIVE_KEYWORDS.find? (fun neg_kw => pyIn neg_kw combined) with
  | some neg_kw => (false, "Negative keyword: ".data ++ neg_kw)
  | none =>
    if PDF_POSITIVE_KEYWORDS.any (fun pos_kw => pyIn pos_kw combined) then
      (true, "Has positive keyword".data)
    else
      (true, "No blocking keywords".data)

/-- `FileDownloader.get_url_score` (file_downloader.py lines 138-174):
start at 50, subtract 60 once if any negative keyword matches, add 15
per matching positive keyword, add path boosts, clamp to `[0, 100]`. -/
def get_url_score (url link_text : List Char) : Int :=
  let url_lower := pyLower url
  let text_lower := pyLower link_text
  let combined := url_lower ++ ' ' :: text_lower
  let score : Int := 50
  let score := if PDF_NEGATIVE_KEYWORDS.any (fun neg_kw => pyIn neg_kw combined)
               then score - 60 else score
  let positive_matches : Int :=
    (PDF_POSITIVE_KEYWORDS.countP (fun pos_kw => pyIn pos_kw combined) : Int)
  let score := score + positive_matches * 15
  let score := if pyIn "/catalog".data url_lower || pyIn "/katalog".data url_lower
               then score + 20 else score
  let score := if pyIn "/product".data url_lower || pyIn "/urun".data url_lower
               then score + 15 else score
  let score := if pyIn "/download".data url_lower || pyIn "/indir".data url_lower
               then score + 10 else score
  max 0 (min 100 score)

/-! ### Result validation (`utils/validators.py`) -/

def STATUS_SUCCESS : List Char := "SUCCESS".data
def STATUS_PARTIAL : List Char := "PARTIAL".data
def STATUS_FAILED : List Char := "FAILED".data
def STATUS_ERROR : List Char := "ERROR".data

/-- The fields of the company-data dictionary consulted by the
validators and the Excel sink (`dict.get` defaults are the values a
record carries when the scraper never set the key). -/
structure CompanyRecord where
  company_name : List Char
  phone : List Char
  email : List Char
  status : List Char
  catalog_count : Int
  catalog_files : List (List Char)
  downloaded_catalogs : List (List Char)

/-- `validate_catalog_exists` (validators.py lines 35-71). -/
def validate_catalog_exists (d : CompanyRecord) : Bool :=
  if d.catalog_count > 0 then true
  else if d.catalog_files ≠ [] then true
  else if d.downloaded_catalogs ≠ [] then true
  else false

/-- `validate_company_data` (validators.py lines 74-107). -/
def validate_company_data (d : CompanyRecord) : Bool :=
  if d.status = STATUS_FAILED || d.status = STATUS_ERROR then false
  else if ¬ validate_catalog_exists d then false
  else true

/-- `ExcelWriter.append_company` (excel_writer.py lines 92-127): a
record failing `validate_company_data` is skipped (`False`, pending
list unchanged); otherwise the prepared row is appended (`True`). -/
def append_company (pending : List CompanyRecord) (d : CompanyRecord) :
    Bool × List CompanyRecord :=
  if ¬ validate_company_data d then (false, pending)
  else (true, pending ++ [d])

/-- `determine_status` (validators.py lines 270-297). -/
def determine_status (catalog_count : Int) (has_contact : Bool) : List Char :=
  if catalog_count = 0 then STATUS_FAILED
  else if has_contact then STATUS_SUCCESS
  else STATUS_PARTIAL

/-- `has_contact_info` (validators.py lines 300-327): Python's
`if phone and phone.strip()` is nonemptiness of the field and of its
whitespace-stripped form. -/
def has_contact_info (d : CompanyRecord) : Bool :=
  if d.phone ≠ [] && pyStrip d.phone ≠ [] then true
  else if d.email ≠ [] && pyStrip d.email ≠ [] then true
  else false

/-! ### Catalog candidate filter (`scrapers/catalog_strategies.py`) -/

/-- Character table of the local `normalize_turkish` in
`_extract_catalogs_from_soup` (catalog_strategies.py lines 669-679). -/
def trMapChar (c : Char) : Char :=
  if c = 'İ' then 'i' else if c = 'I' then 'i' else if c = 'ı' then 'i'
  else if c = 'Ğ' then 'g' else if c = 'ğ' then 'g'
  else if c = 'Ü' then 'u' else if c = 'ü' then 'u'
  else if c = 'Ş' then 's' else if c = 'ş' then 's'
  else if c = 'Ö' then 'o' else if c = 'ö' then 'o'
  else if c = 'Ç' then 'c' else if c = 'ç' then 'c'
  else c

/-- `normalize_turkish` (catalog_strategies.py lines 669-679):
`text.translate(tr_map).lower()`. -/
def normalize_turkish (text : List Char) : List Char :=
  pyLower (text.map trMapChar)

/-- Lowercase hex as accepted by the `^[a-f0-9]{20,}$` hash filename
pattern. -/
def isLowerHex (c : Char) : Bool := isAsciiDigit c || ('a' ≤ c && c ≤ 'f')

/-- `is_valid_catalog` (catalog_strategies.py lines 681-704): URL
decoded and Turkish-normalized; a bare filename of 20 or more hex
characters is dropped as a content hash; otherwise the decoded URL and
the normalized filename are scanned for negative keywords.
`re.match(r'^[a-f0-9]{20,}$', s)` is full-match of at least 20
lowercase-hex characters (the pattern's `$` tolerance for one trailing
newline cannot trigger on a dot-free extension-split base name). -/
def is_valid_catalog (url : List Char) : Bool :=
  let decoded_url := normalize_turkish (pyUnquote url)
  let filename := pyBasename (pyUrlPath url)
  let filename_normalized := normalize_turkish (pyUnquote filename)
  let name_without_ext := pySplitextBase filename
  let lowered := pyLower name_without_ext
  if 20 ≤ lowered.length && lowered.all isLowerHex then false
  else
    let combined := decoded_url ++ ' ' :: filename_normalized
    if PDF_NEGATIVE_KEYWORDS.any (fun neg_kw => pyIn neg_kw combined) then false
    else true

/-! ### Phone formatting and harvesting (`scrapers/generic_scraper.py`) -/

/-- The `+90 XXX XXX XX XX` rendering used by `_format_phone` for a
13-character `+90`-prefixed cleaned string. -/
def renderPlus90 (cleaned : List Char) : List Char :=
  "+90 ".data ++ (cleaned.drop 3).take 3 ++ ' ' :: ((cleaned.drop 6).take 3)
    ++ ' ' :: ((cleaned.drop 9).take 2) ++ ' ' :: ((cleaned.drop 11).take 2)

/-- `_format_phone` (generic_scraper.py lines 1371-1428).  Note that
the `0090` branch is `'+9' + cleaned[2:]` exactly as in the source,
which turns `0090…` into `+990…`. -/
def format_phone (phone : List Char) : List Char :=
  if phone = [] then []
  else
    let cleaned := phone.filter (fun c => isAsciiDigit c || c = '+')
    if cleaned.length < 10 then []
    else
      let cleaned := if cleaned.length > 15 then cleaned.take 13 else cleaned
      let cleaned :=
        if pyStartswith cleaned "0090".data then '+' :: '9' :: cleaned.drop 2
        else if pyStartswith cleaned "90".data && cleaned.length = 12 then '+' :: cleaned
        else if pyStartswith cleaned "0".data && cleaned.length = 11 then '+' :: '9' :: cleaned
        else if cleaned.length = 10 && ¬ pyStartswith cleaned "+".data then
          '+' :: '9' :: '0' :: cleaned
        else cleaned
      if pyStartswith cleaned "+90".data && cleaned.length = 13 then
        renderPlus90 cleaned
      else if pyStartswith cleaned "+90".data && 13 < cleaned.length then
        let ext := cleaned.drop 13
        if ext ≠ [] then renderPlus90 cleaned ++ " (Dahili: ".data ++ ext ++ [')']
        else renderPlus90 cleaned
      else if 10 ≤ cleaned.length then cleaned
      else []

/-- The invalid-start check of `_find_phones_in_text` (lines
1009-1012). -/
def invalid_start (digits last_10 : List Char) : Bool :=
  INVALID_PHONE_STARTS.any
    (fun inv => pyStartswith digits inv || pyStartswith last_10 inv)

/-- The area-code extraction of `_find_phones_in_text` (lines
1014-1021): `digits[2:5]` after a `90` prefix of at least 12 digits,
`digits[1:4]` after a `0` prefix of at least 11 digits, `digits[0:3]`
for exactly 10 digits, else none. -/
def area_code_of (digits : List Char) : Option (List Char) :=
  if pyStartswith digits "90".data && 12 ≤ digits.length then
    some ((digits.drop 2).take 3)
  else if pyStartswith digits "0".data && 11 ≤ digits.length then
    some ((digits.drop 1).take 3)
  else if digits.length = 10 then some (digits.take 3)
  else none

/-- The area-code rejection of `_find_phones_in_text` (lines
1024-1028): an extracted area code outside `VALID_AREA_CODES` is
rejected unless the digit count is 10, 11 or 12; with no extracted
area code nothing is rejected. -/
def reject_area (digits : List Char) : Bool :=
  match area_code_of digits with
  | some ac =>
    ¬ VALID_AREA_CODES.contains ac &&
      ¬ (digits.length = 10 || digits.length = 11 || digits.length = 12)
  | none => false

/-- One iteration of the candidate loop of `_find_phones_in_text`
(generic_scraper.py lines 986-1041), acting on the
`(seen_digits, phones)` state.  `faxCtx m` stands for the
fax-label test on the ±30/+10-character context window around the
first occurrence of the match `m` in the page text. -/
def phone_accept_step (faxCtx : List Char → Bool)
    (st : List (List Char) × List (List Char)) (m : List Char) :
    List (List Char) × List (List Char) :=
  let formatted := format_phone m
  if formatted = [] then st
  else
    let digits := formatted.filter isAsciiDigit
    if digits.length < 10 then st
    else if 14 < digits.length then st
    else
      let last_10 := digits.drop (digits.length - 10)
      if st.1.contains last_10 then st
      else if invalid_start digits last_10 then st
      else if reject_area digits then st
      else if faxCtx m then st
      else (last_10 :: st.1, st.2 ++ [formatted])

/-- `_find_phones_in_text` (generic_scraper.py lines 967-1043).
`matches` is the concatenation of the `re.findall` results over
`PHONE_PATTERNS + [PHONE_PATTERN]`, in pattern order. -/
def find_phones_in_text (ms : List (List Char)) (faxCtx : List Char → Bool) :
    List (List Char) :=
  (ms.foldl (phone_accept_step faxCtx) ([], [])).2

/-! ### Address validation (`scrapers/generic_scraper.py`) -/

/-- `\b` holds before position `i` of `s`. -/
def boundaryBefore (s : List Char) (i : Nat) : Bool :=
  i = 0 || ¬ isWordChar (s.getD (i - 1) ' ')

/-- `\b` holds after position `i` (i.e. between `i-1` and `i`) when a
word char was just consumed. -/
def boundaryAfter (s : List Char) (i : Nat) : Bool :=
  s.length ≤ i || ¬ isWordChar (s.getD i ' ')

/-- Literal `t` occurs at position `i` of `s`. -/
def matchAt (s t : List Char) (i : Nat) : Bool := decide (t <+: s.drop i)

/-- `\bt\b` matches at `i` (for a token `t` made of word characters). -/
def wordTokenAt (s t : List Char) (i : Nat) : Bool :=
  matchAt s t i && boundaryBefore s i && boundaryAfter s (i + t.length)

/-- `re.search(r'\bt\b', s)` succeeds somewhere. -/
def hasWordToken (s t : List Char) : Bool :=
  (List.range (s.length + 1)).any (wordTokenAt s t)

/-- `\bt\.\b` (token, then a literal dot, then a word character; the
trailing `\b` after the non-word `'.'` demands a following word
character). -/
def hasDotToken (s t : List Char) : Bool :=
  (List.range (s.length + 1)).any (fun i =>
    matchAt s (t ++ ['.']) i && boundaryBefore s i &&
    (i + t.length + 1 < s.length && isWordChar (s.getD (i + t.length + 1) ' ')))

/-- The mandatory street-type component scan of `_is_valid_address`:
`\b(?:mah\.?|mahallesi)\b`, `\b(?:sok\.?|sokak|sokağı)\b`,
`\b(?:cad\.?|caddesi|cadde)\b`, `\b(?:bulvar|blv\.?)\b`, each
`re.search`-ed over the lowercased address. -/
def has_street_component (s : List Char) : Bool :=
  (hasWordToken s "mah".data || hasDotToken s "mah".data || hasWordToken s "mahallesi".data) ||
  (hasWordToken s "sok".data || hasDotToken s "sok".data || hasWordToken s "sokak".data ||
    hasWordToken s "sokağı".data) ||
  (hasWordToken s "cad".data || hasDotToken s "cad".data || hasWordToken s "caddesi".data ||
    hasWordToken s "cadde".data) ||
  (hasWordToken s "bulvar".data || hasWordToken s "blv".data || hasDotToken s "blv".data)

/-- `re.search(r'\bno\.?\s*[:\s]*\d+', s)`: after the bounded token
`no` and an optional dot, any run of whitespace/colons, then a digit
(`\s*[:\s]*` jointly accept exactly the strings over whitespace and
`':'`). -/
def has_building_number (s : List Char) : Bool :=
  (List.range (s.length + 1)).any (fun i =>
    boundaryBefore s i && matchAt s "no".data i &&
    (let j := i + 2
     let j := if j < s.length && s.getD j ' ' = '.' then j + 1 else j
     let rest := (s.drop j).dropWhile (fun c => isPySpace c || c = ':')
     rest ≠ [] && isAsciiDigit (rest.headD ' ')))

/-- `re.search(r'\b\d{5}\b', s)`. -/
def has_postal_code (s : List Char) : Bool :=
  (List.range (s.length + 1)).any (fun i =>
    boundaryBefore s i && ((s.drop i).take 5).length = 5 &&
    ((s.drop i).take 5).all isAsciiDigit && boundaryAfter s (i + 5))

/-- The `invalid_patterns` list local to `_is_valid_address`
(generic_scraper.py lines 1193-1213). -/
def ADDRESS_INVALID_PATTERNS : List (List Char) :=
  ["gerekmektedir".data, "gereklidir".data, "yapılmalıdır".data, "yapılır".data,
   "edilmelidir".data, "edilmektedir".data, "alınmalıdır".data, "atıldı".data,
   "kuruldu".data, "açıldı".data, "başladı".data, "sağlanmaktadır".data,
   "bulunmaktadır".data, "yer almaktadır".data, "hizmet vermektedir".data,
   "tıklayın".data, "tıklayınız".data, "click".data, "buraya".data, "burada".data,
   "detay".data, "devam".data, "geri".data, "ileri".data, "seç".data, "görüntüle".data,
   "satış bölge".data, "müdürlük".data, "yetkili".data, "bayi".data, "temsilci".data,
   "distribütör".data, "dealer".data, "şube listesi".data,
   "lütfen".data, "please".data, "için".data, "hakkında".data, "about".data,
   "copyright".data, "tüm hakları".data, "all rights".data, "reserved".data,
   "@".data, "http".data, "www.".data, ".com".data, ".tr".data, ".net".data, ".org".data,
   "cookie".data, "çerez".data, "gizlilik".data, "kvkk".data, "aydınlatma".data,
   "sözleşme".data, "koşul".data, "şart".data, "politika".data]

/-- The `cities` list local to `_is_valid_address`
(generic_scraper.py lines 1239-1245). -/
def ADDRESS_CITIES : List (List Char) :=
  ["istanbul".data, "ankara".data, "izmir".data, "bursa".data, "antalya".data,
   "konya".data, "adana".data, "gaziantep".data, "kocaeli".data, "mersin".data,
   "kayseri".data, "eskişehir".data, "denizli".data, "manisa".data, "sakarya".data,
   "samsun".data, "trabzon".data, "diyarbakır".data, "şanlıurfa".data, "malatya".data,
   "erzurum".data, "van".data, "batman".data, "elazığ".data, "kahramanmaraş".data,
   "türkiye".data]

/-- `_is_valid_address` (generic_scraper.py lines 1181-1249). -/
def is_valid_address (address : List Char) : Bool :=
  if address = [] then false
  else if address.length < 25 || 250 < address.length then false
  else
    let address_lower := pyLower address
    if ADDRESS_INVALID_PATTERNS.any (fun inv => pyIn inv address_lower) then false
    else if 3 < address.countP (· = '.') then false
    else if ¬ has_street_component address_lower then false
    else
      let hasNum := has_building_number address_lower
      let hasPostal := has_postal_code address_lower
      let hasCity := ADDRESS_CITIES.any (fun city => pyIn city address_lower)
      has_street_component address_lower && (hasCity || hasPostal || hasNum)

/-! ### Catalog link extraction (`scrapers/generic_scraper.py`) -/

/-- A scored catalog candidate: `(full_url, score, link_text)`. -/
abbrev Cand := List Char × Int × List Char

/-- The `add_candidate` closure of `extract_catalog_links`
(generic_scraper.py lines 459-471), acting on the accumulated
candidate list.  The input pair carries the resolved absolute URL and
the link text; the guard on an empty URL mirrors `if not url`. -/
def add_candidate (acc : List Cand) (p : List Char × List Char) : List Cand :=
  let (url, link_text) := p
  if url = [] then acc
  else if (should_download_url url link_text).1 then
    acc ++ [(url, get_url_score url link_text, link_text)]
  else acc

/-- The descending-score comparison used by
`catalog_candidates.sort(key=lambda x: x[1], reverse=True)`. -/
def candGE (a b : Cand) : Prop := b.2.1 ≤ a.2.1

instance : DecidableRel candGE := fun a b => inferInstanceAs (Decidable (b.2.1 ≤ a.2.1))

instance : IsTotal Cand candGE := ⟨fun a b => le_total b.2.1 a.2.1⟩

instance : IsTrans Cand candGE := ⟨fun _ _ _ h1 h2 => le_trans h2 h1⟩

/-- Python's stable `list.sort(key=lambda x: x[1], reverse=True)`:
insertion sort with the (total, transitive) descending-score order,
which preserves first-seen order among equal scores. -/
def pySortDesc (l : List Cand) : List Cand :=
  l.insertionSort candGE

/-- URL normalization of the dedup loop:
`url.split('?')[0].rstrip('/')`. -/
def normalized_url (url : List Char) : List Char :=
  ((url.takeWhile (· ≠ '?')).reverse.dropWhile (· = '/')).reverse

/-- The dedup loop of `extract_catalog_links` (lines 543-551), kept on
full candidates for reasoning; `seen` is the set of already-emitted
normalized URLs. -/
def dedupCands (seen : List (List Char)) : List Cand → List Cand
  | [] => []
  | c :: rest =>
    let k := normalized_url c.1
    if seen.contains k then dedupCands seen rest
    else c :: dedupCands (k :: seen) rest

/-- `extract_catalog_links` (generic_scraper.py lines 435-554) as a
function of the stream of `(resolved URL, link text)` pairs the five
document scans feed to `add_candidate`, in document order: filter and
score through the classifier, stable-sort by score descending,
deduplicate by normalized URL keeping the first (highest-ranked)
instance, return the URLs. -/
def extract_catalog_links (stream : List (List Char × List Char)) : List (List Char) :=
  (dedupCands [] (pySortDesc (stream.foldl add_candidate []))).map (·.1)

/-! ### Strategy manager (`scrapers/catalog_strategies.py`) -/

/-- Python `set.add` on the accumulated catalog set (represented as a
duplicate-free list; `execute_all` only consumes membership and
cardinality). -/
def pySetInsert (acc : List (List Char)) (u : List Char) : List (List Char) :=
  if acc.contains u then acc else acc ++ [u]

/-- `all_catalogs.update(catalogs)`. -/
def pySetUpdate (acc : List (List Char)) (cats : List (List Char)) : List (List Char) :=
  cats.foldl pySetInsert acc

/-- A fetch strategy as consumed by `StrategyManager.execute_all`: its
`execute(website)` either raises (modelled by `Except.error`) or
returns discovered catalog URLs and possibly a parsed document. -/
abbrev Strategy (σ ε : Type) := List Char → Except ε (List (List Char) × Option σ)

/-- `if soup: last_soup = soup` — a returned document replaces the
remembered one, a missing document keeps it. -/
def updateLast {σ : Type} (last soup : Option σ) : Option σ :=
  match soup with
  | some sp => some sp
  | none => last

/-- The strategy loop of `execute_all` (catalog_strategies.py lines
796-811): exceptions are caught and skipped, a non-empty catalog batch
is unioned into the running set, and with `stop_on_success` the loop
breaks once the set reaches `min_catalogs`. -/
def execute_all_go {σ ε : Type} (website : List Char) (stop_on_success : Bool)
    (min_catalogs : Int) :
    List (Strategy σ ε) → List (List Char) → Option σ → List (List Char) × Option σ
  | [], acc, last => (acc, last)
  | strat :: rest, acc, last =>
    match strat website with
    | .error _ => execute_all_go website stop_on_success min_catalogs rest acc last
    | .ok (catalogs, soup) =>
      if catalogs = [] then
        execute_all_go website stop_on_success min_catalogs rest acc (updateLast last soup)
      else if stop_on_success && min_catalogs ≤ ((pySetUpdate acc catalogs).length : Int) then
        (pySetUpdate acc catalogs, updateLast last soup)
      else
        execute_all_go website stop_on_success min_catalogs rest
          (pySetUpdate acc catalogs) (updateLast last soup)

/-- `StrategyManager.execute_all` (catalog_strategies.py lines
780-813), over the manager's strategy list (`_init_strategies`
installs the single `DeepScanStrategy`, so the list is its priority
order). -/
def execute_all {σ ε : Type} (strategies : List (Strategy σ ε)) (website : List Char)
    (stop_on_success : Bool) (min_catalogs : Int) : List (List Char) × Option σ :=
  execute_all_go website stop_on_success min_catalogs strategies [] none

/-! ### Spec-side definitions (for comparison against the claims) -/

/-- The score formula as the specification words it: 50, minus 60 on
any negative match, plus 15 per positive match, plus path boosts,
clamped to `[0, 100]`. -/
def claimed_url_score (url link_text : List Char) : Int :=
  let url_lower := pyLower url
  let combined := url_lower ++ ' ' :: pyLower link_text
  let raw : Int :=
    50 - (if PDF_NEGATIVE_KEYWORDS.any (fun kw => pyIn kw combined) then 60 else 0)
    + 15 * (PDF_POSITIVE_KEYWORDS.countP (fun kw => pyIn kw combined) : Int)
    + (if pyIn "/catalog".data url_lower || pyIn "/katalog".data url_lower then 20 else 0)
    + (if pyIn "/product".data url_lower || pyIn "/urun".data url_lower then 15 else 0)
    + (if pyIn "/download".data url_lower || pyIn "/indir".data url_lower then 10 else 0)
  max 0 (min 100 raw)

/-- The validation-gate guarantees (amended claim C5) satisfied by
every phone in the `_find_phones_in_text` accumulator: it is the
formatter's output on some regex match, carries 10-14 digits, avoids
the known-invalid digit prefixes on both the full digit string and
its last 10 digits, and any extracted area code outside the valid set
forces a digit length of 10, 11 or 12. -/
def phone_gate_spec (ms : List (List Char)) (p : List Char) : Prop :=
  ∃ m ∈ ms, p = format_phone m ∧
    (10 ≤ (p.filter isAsciiDigit).length ∧ (p.filter isAsciiDigit).length ≤ 14) ∧
    (∀ inv ∈ INVALID_PHONE_STARTS,
      ¬ inv <+: p.filter isAsciiDigit ∧
      ¬ inv <+: (p.filter isAsciiDigit).drop ((p.filter isAsciiDigit).length - 10)) ∧
    (∀ ac, area_code_of (p.filter isAsciiDigit) = some ac →
      ac ∈ VALID_AREA_CODES ∨ (p.filter isAsciiDigit).length = 10 ∨
      (p.filter isAsciiDigit).length = 11 ∨ (p.filter isAsciiDigit).length = 12)

/-- The canonical `+90 XXX XXX XX XX` shape named by the claim. -/
def isCanonicalPhone (p : List Char) : Bool :=
  match p with
  | '+' :: '9' :: '0' :: ' ' :: a :: b :: c :: ' ' :: d :: e :: f :: ' ' ::
      g :: h :: ' ' :: i :: j :: [] =>
    isAsciiDigit a && isAsciiDigit b && isAsciiDigit c && isAsciiDigit d &&
    isAsciiDigit e && isAsciiDigit f && isAsciiDigit g && isAsciiDigit h &&
    isAsciiDigit i && isAsciiDigit j
  | _ => false

/-! ### Concrete test inputs -/

/-- A URL whose negative keyword is spelled with the dotted capital
`İ`; its diacritic-normalized lowercase contains `gizlilik`. -/
def c1_url : List Char := "https://x.com/GİZLİLİK.pdf".data

/-- A URL containing the ASCII negative keyword `gizlilik`. -/
def c1_ascii_url : List Char := "https://x.com/gizlilik-politikasi.pdf".data

/-- A URL whose bare filename is a 32-character hex hash. -/
def c3_url : List Char :=
  "https://cdn.x.com/44e6837acccc042ae3d6cd8eac957784.pdf".data

/-- A record with zero `catalog_count` but a non-empty
`catalog_files` list and status `SUCCESS`. -/
def c2_record : CompanyRecord :=
  { company_name := "ACME".data, phone := [], email := [],
    status := STATUS_SUCCESS, catalog_count := 0,
    catalog_files := ["katalog.pdf".data], downloaded_catalogs := [] }

/-- A record with zero `catalog_count`, no files, but full contact
info. -/
def c2_empty_record : CompanyRecord :=
  { company_name := "ACME".data, phone := "+90 212 555 00 11".data,
    email := "info@acme.com".data, status := STATUS_SUCCESS,
    catalog_count := 0, catalog_files := [], downloaded_catalogs := [] }

/-- `re.findall` matches produced on the page text
`"(0212) 345 67 89 12"` by `PHONE_PATTERNS + [PHONE_PATTERN]`, in
pattern order: pattern 2 (`\(0\d{3}\)...`), pattern 4 (the
pbx/extension variant) and the final `PHONE_PATTERN`. -/
def c5_m1 : List Char := "(0212) 345 67 89".data
def c5_m2 : List Char := "(0212) 345 67 89 12".data
def c5_m3 : List Char := "0212) 345 67 89".data

/-- The non-canonical digit string accumulated from `c5_m2`. -/
def c5_raw : List Char := "0212345678912".data

/-- An address in the form the claim's accept scenario describes. -/
def c6_address : List Char := "Örnek Mah. Atatürk Cad. No:12, 34000 İstanbul".data

/-- A cookie-notice fragment that still contains `Cad.` and a 5-digit
number. -/
def c6_reject : List Char :=
  "Bu site cookie kullanır, kabul edin. Cad. No:3, 34000".data

/-- Candidate stream with two spellings of the same catalog URL: the
first scores higher (positive link text), the second lower. -/
def c7_stream : List (List Char × List Char) :=
  [("https://a.com/k.pdf?x=1".data, "Katalog".data),
   ("https://a.com/k.pdf".data, [])]

/-- A strategy that always raises. -/
def c9_err : Strategy Unit Unit := fun _ => .error ()

/-- A strategy that finds one catalog. -/
def c9_ok : Strategy Unit Unit := fun _ => .ok (["https://a.com/k.pdf".data], some ())

/-- A URL with neither positive nor negative keyword. -/
def c10_url : List Char := "https://x.com/a.pdf".data

/-! ## General lemmas about the string primitives -/

theorem pyIn_iff {n h : List Char} : pyIn n h = true ↔ n <:+: h := by
  simp [pyIn]

theorem pyLower_cons (c : Char) (s : List Char) :
    pyLower (c :: s) = pyLowerChar c ++ pyLower s := by
  simp [pyLower]

theorem pyLower_append (a b : List Char) :
    pyLower (a ++ b) = pyLower a ++ pyLower b := by
  simp [pyLower]

theorem pyLower_fixed {t : List Char} (h : ∀ c ∈ t, pyLowerChar c = [c]) :
    pyLower t = t := by
  induction t with
  | nil => rfl
  | cons c cs ih =>
    rw [pyLower_cons, h c (List.mem_cons_self c cs),
      ih fun x hx => h x (List.mem_cons_of_mem c hx)]
    rfl

theorem infix_pyLower {t s : List Char} (hfix : ∀ c ∈ t, pyLowerChar c = [c])
    (h : t <:+: s) : t <:+: pyLower s := by
  obtain ⟨u, v, huv⟩ := h
  refine ⟨pyLower u, pyLower v, ?_⟩
  rw [← huv, pyLower_append, pyLower_append, pyLower_fixed hfix]

theorem pyStrip_eq_nil_iff {s : List Char} :
    pyStrip s = [] ↔ ∀ c ∈ s, isPySpace c = true := by
  unfold pyStrip
  rw [List.reverse_eq_nil_iff, List.dropWhile_eq_nil_iff]
  constructor
  · intro h c hc
    by_cases hmem : c ∈ s.dropWhile isPySpace
    · exact h c (List.mem_reverse.mpr hmem)
    · have hs := List.takeWhile_append_dropWhile (p := isPySpace) (l := s)
      rw [← hs] at hc
      rcases List.mem_append.mp hc with h1 | h1
      · exact List.mem_takeWhile_imp h1
      · exact absurd h1 hmem
  · intro h c hc
    have hs := List.takeWhile_append_dropWhile (p := isPySpace) (l := s)
    refine h c ?_
    rw [← hs]
    exact List.mem_append.mpr (Or.inr (List.mem_reverse.mp hc))

theorem nonblank_iff (s : List Char) :
    (s ≠ [] ∧ pyStrip s ≠ []) ↔ ∃ c ∈ s, isPySpace c = false := by
  constructor
  · rintro ⟨-, h2⟩
    by_contra hall
    push_neg at hall
    refine h2 (pyStrip_eq_nil_iff.mpr fun c hc => ?_)
    have h := hall c hc
    cases hcs : isPySpace c
    · exact absurd hcs h
    · rfl
  · rintro ⟨c, hc, hns⟩
    constructor
    · rintro rfl
      exact absurd hc (List.not_mem_nil c)
    · intro h
      have hsp := pyStrip_eq_nil_iff.mp h c hc
      rw [hsp] at hns
      exact Bool.noConfusion hns

/-! ## Claim theorems -/

/-- C4: `determine_status 0 b` is `FAILED` for either boolean, a
positive count yields `SUCCESS` with contact and `PARTIAL` without,
and the has-contact input (`has_contact_info`) is true exactly when
the phone or email field holds a non-empty, non-whitespace string. -/
theorem c4_status_transition :
    (∀ b : Bool, determine_status 0 b = STATUS_FAILED) ∧
    (∀ n : Int, 0 < n →
      determine_status n true = STATUS_SUCCESS ∧
      determine_status n false = STATUS_PARTIAL) ∧
    (∀ d : CompanyRecord, has_contact_info d = true ↔
      ((∃ c ∈ d.phone, isPySpace c = false) ∨ (∃ c ∈ d.email, isPySpace c = false))) := by
  refine ⟨fun b => rfl, fun n hn => ?_, fun d => ?_⟩
  · have h0 : ¬ (n = 0) := by omega
    exact ⟨by simp [determine_status, h0], by simp [determine_status, h0]⟩
  · rw [← nonblank_iff, ← nonblank_iff]
    unfold has_contact_info
    by_cases h1 : d.phone ≠ [] ∧ pyStrip d.phone ≠ []
    · simp [h1]
    · by_cases h2 : d.email ≠ [] ∧ pyStrip d.email ≠ [] <;> simp [h1, h2]

/-- C4 witness: the transition rule evaluated at count 3. -/
theorem c4_status_transition_witness :
    determine_status 3 true = STATUS_SUCCESS ∧ determine_status 3 false = STATUS_PARTIAL :=
  c4_status_transition.2.1 3 (by decide)

/-- C10: when no negative keyword occurs in the lowercased
URL+linktext string, `should_download_url` approves the URL, with one
of the two approval reasons — a missing positive keyword never blocks
the download gate. -/
theorem c10_no_negative_approves (url text : List Char)
    (h : ∀ kw ∈ PDF_NEGATIVE_KEYWORDS, ¬ kw <:+: (pyLower url ++ ' ' :: pyLower text)) :
    (should_download_url url text).1 = true ∧
    ((should_download_url url text).2 = "Has positive keyword".data ∨
     (should_download_url url text).2 = "No blocking keywords".data) := by
  have hf : PDF_NEGATIVE_KEYWORDS.find?
      (fun kw => pyIn kw (pyLower url ++ ' ' :: pyLower text)) = none := by
    rw [List.find?_eq_none]
    intro kw hkw
    simpa [pyIn] using h kw hkw
  by_cases hp : PDF_POSITIVE_KEYWORDS.any
      (fun kw => pyIn kw (pyLower url ++ ' ' :: pyLower text)) = true <;>
    simp [should_download_url, hf, hp]

/-- C10 witness: a keyword-free URL is approved. -/
theorem c10_no_negative_approves_witness :
    (should_download_url c10_url []).1 = true ∧
    ((should_download_url c10_url []).2 = "Has positive keyword".data ∨
     (should_download_url c10_url []).2 = "No blocking keywords".data) :=
  c10_no_negative_approves c10_url [] (by decide)

/-- C8: `get_url_score` equals the claimed 50/−60/+15/path-boost
formula and always lies in `[0, 100]`. -/
theorem c8_score_formula (url text : List Char) :
    get_url_score url text = claimed_url_score url text ∧
    0 ≤ get_url_score url text ∧ get_url_score url text ≤ 100 := by
  refine ⟨?_, le_max_left 0 _, max_le (by norm_num) (min_le_left _ _)⟩
  simp only [get_url_score, claimed_url_score]
  split_ifs <;> omega

/-- C2 counterexample: a record with `catalog_count = 0` but a
non-empty `catalog_files` list and status `SUCCESS` passes the gate
and is stored by the sink. -/
theorem c2_counterexample :
    c2_record.catalog_count = 0 ∧ append_company [] c2_record = (true, [c2_record]) :=
  ⟨rfl, rfl⟩

/-- C2 amended: a record with `catalog_count = 0` is rejected by the
persistence gate provided its `catalog_files` and
`downloaded_catalogs` lists are empty, regardless of the contact
fields and the status. -/
theorem c2_gate_rejects (pending : List CompanyRecord) (d : CompanyRecord)
    (h1 : d.catalog_count = 0) (h2 : d.catalog_files = [])
    (h3 : d.downloaded_catalogs = []) :
    append_company pending d = (false, pending) := by
  have hv : validate_catalog_exists d = false := by
    simp [validate_catalog_exists, h1, h2, h3]
  simp [append_company, validate_company_data, hv]

/-- C2 witness: a zero-catalog record with full contact info is
skipped. -/
theorem c2_gate_rejects_witness :
    append_company [] c2_empty_record = (false, []) :=
  c2_gate_rejects [] c2_empty_record rfl rfl rfl

/-- C1 counterexample: `should_download_url` applies no Turkish
normalization, only `str.lower()`.  The diacritic spelling
`GİZLİLİK` lowercases to `gi̇zli̇li̇k` (with combining dots), its
diacritic-normalized form contains the negative keyword `gizlilik`,
yet the URL is approved. -/
theorem c1_counterexample :
    "gizlilik".data ∈ PDF_NEGATIVE_KEYWORDS ∧
    pyIn "gizlilik".data (normalize_turkish (c1_url ++ [' '])) = true ∧
    should_download_url c1_url [] = (true, "No blocking keywords".data) :=
  ⟨by decide, by decide, by decide⟩

/-- C1 amended: if the plainly lowercased URL+linktext string
contains a negative keyword, `should_download_url` rejects with the
first matching keyword (in list order) as the reason, regardless of
positive keywords; diacritic variants are covered only by explicit
list entries, not by normalization. -/
theorem c1_deny_rule (url text kw : List Char)
    (h : PDF_NEGATIVE_KEYWORDS.find?
      (fun k => pyIn k (pyLower url ++ ' ' :: pyLower text)) = some kw) :
    should_download_url url text = (false, "Negative keyword: ".data ++ kw) := by
  simp [should_download_url, h]

/-- C1 witness: the deny rule fires on an ASCII-spelled negative
keyword. -/
theorem c1_deny_rule_witness :
    should_download_url c1_ascii_url [] =
      (false, "Negative keyword: ".data ++ "gizlilik".data) :=
  c1_deny_rule c1_ascii_url [] "gizlilik".data (by decide)

/-- C3 counterexample: a 32-hex-character bare filename is not
excluded by `should_download_url` — the classifier approves it; the
hash heuristic lives in `is_valid_catalog` instead. -/
theorem c3_counterexample :
    (20 ≤ (pyLower (pySplitextBase (pyBasename (pyUrlPath c3_url)))).length ∧
     (pyLower (pySplitextBase (pyBasename (pyUrlPath c3_url)))).all isLowerHex = true) ∧
    should_download_url c3_url [] = (true, "No blocking keywords".data) :=
  ⟨⟨by decide, by decide⟩, by decide⟩

/-- C3 amended: the hex-hash filename heuristic is implemented by
`is_valid_catalog` (the deep-scan candidate filter): any URL whose
path basename, minus its extension, lowercases to 20 or more hex
characters is rejected there, independently of any keyword. -/
theorem c3_hex_filename_excluded (url : List Char)
    (h : 20 ≤ (pyLower (pySplitextBase (pyBasename (pyUrlPath url)))).length ∧
         (pyLower (pySplitextBase (pyBasename (pyUrlPath url)))).all isLowerHex = true) :
    is_valid_catalog url = false := by
  simp [is_valid_catalog, h.1, h.2]

/-- C3 witness: the hex-named PDF is rejected by `is_valid_catalog`. -/
theorem c3_hex_filename_excluded_witness :
    is_valid_catalog c3_url = false :=
  c3_hex_filename_excluded c3_url ⟨by decide, by decide⟩

/-- C6: the address validator rejects every string containing
`cookie`, `gizlilik` or `tıklayınız` (even with `Cad.` and a 5-digit
number present); it accepts the `… Mah. … Cad. No:12, 34000 İstanbul`
address; and acceptance requires length in `[25, 250]`, no
disqualifying phrase, a mandatory street-type token, and additionally
a known city name, a 5-digit postal code or a building-number
pattern. -/
theorem c6_address_validator :
    (∀ s : List Char,
       ("cookie".data <:+: s ∨ "gizlilik".data <:+: s ∨ "tıklayınız".data <:+: s) →
       is_valid_address s = false) ∧
    is_valid_address c6_address = true ∧
    (∀ s : List Char, is_valid_address s = true →
       (25 ≤ s.length ∧ s.length ≤ 250) ∧
       (∀ inv ∈ ADDRESS_INVALID_PATTERNS, ¬ inv <:+: pyLower s) ∧
       has_street_component (pyLower s) = true ∧
       (ADDRESS_CITIES.any (fun city => pyIn city (pyLower s)) = true ∨
        has_postal_code (pyLower s) = true ∨
        has_building_number (pyLower s) = true)) := by
  refine ⟨fun s h => ?_, by decide, fun s hvalid => ?_⟩
  · have hany : ADDRESS_INVALID_PATTERNS.any (fun inv => pyIn inv (pyLower s)) = true := by
      rcases h with h | h | h
      · exact List.any_eq_true.mpr
          ⟨"cookie".data, by decide, pyIn_iff.mpr (infix_pyLower (by decide) h)⟩
      · exact List.any_eq_true.mpr
          ⟨"gizlilik".data, by decide, pyIn_iff.mpr (infix_pyLower (by decide) h)⟩
      · exact List.any_eq_true.mpr
          ⟨"tıklayınız".data, by decide, pyIn_iff.mpr (infix_pyLower (by decide) h)⟩
    by_cases h0 : s = []
    · simp [is_valid_address, h0]
    rcases Decidable.em (s.length < 25 ∨ 250 < s.length) with hlen | hlen
    · have : (decide (s.length < 25) || decide (250 < s.length)) = true := by
        rcases hlen with h1 | h1 <;> simp [h1]
      simp [is_valid_address, h0, this]
    · push_neg at hlen
      have e1 : ¬ s.length < 25 := by omega
      have e2 : ¬ 250 < s.length := by omega
      simp [is_valid_address, h0, e1, e2, hany]
  · simp only [is_valid_address] at hvalid
    split_ifs at hvalid with h1 h2 h3 h4 h5
    · have h2' := h2
      simp only [Bool.or_eq_true, decide_eq_true_eq, not_or] at h2'
      have hsplit := hvalid
      simp only [Bool.and_eq_true, Bool.or_eq_true] at hsplit
      obtain ⟨hstreet, hrest⟩ := hsplit
      refine ⟨⟨by omega, by omega⟩, ?_, hstreet, ?_⟩
      · intro inv hinv hcontra
        exact h3 (List.any_eq_true.mpr ⟨inv, hinv, pyIn_iff.mpr hcontra⟩)
      · rcases hrest with (hc | hc) | hc
        · exact Or.inl hc
        · exact Or.inr (Or.inl hc)
        · exact Or.inr (Or.inr hc)

/-- C6 witness: a cookie fragment with `Cad.` and `34000` is
rejected; the accepted address has the required length. -/
theorem c6_address_validator_witness :
    is_valid_address c6_reject = false ∧ 25 ≤ c6_address.length :=
  ⟨c6_address_validator.1 c6_reject (Or.inl (by decide)),
   ((c6_address_validator.2.2 c6_address c6_address_validator.2.1).1).1⟩

/-! ## Lemmas for the strategy manager -/

theorem mem_pySetInsert {acc : List (List Char)} {u v : List Char}
    (h : v ∈ pySetInsert acc u) : v ∈ acc ∨ v = u := by
  by_cases hc : acc.contains u = true
  · rw [pySetInsert, if_pos hc] at h
    exact Or.inl h
  · rw [pySetInsert, if_neg hc] at h
    rcases List.mem_append.mp h with h1 | h1
    · exact Or.inl h1
    · exact Or.inr (List.mem_singleton.mp h1)

theorem mem_pySetUpdate {cats : List (List Char)} :
    ∀ {acc : List (List Char)} {v : List Char},
      v ∈ pySetUpdate acc cats → v ∈ acc ∨ v ∈ cats := by
  induction cats with
  | nil => exact fun h => Or.inl h
  | cons c cs ih =>
    intro acc v h
    have h' : v ∈ pySetUpdate (pySetInsert acc c) cs := by
      simpa [pySetUpdate] using h
    rcases ih h' with h1 | h1
    · rcases mem_pySetInsert h1 with h2 | h2
      · exact Or.inl h2
      · exact Or.inr (by simp [h2])
    · exact Or.inr (List.mem_cons_of_mem _ h1)

theorem execute_go_error_skip {σ ε : Type} {w : List Char} {stop : Bool} {mn : Int}
    {s : Strategy σ ε} {e : ε} (hs : s w = .error e) :
    ∀ (pre post : List (Strategy σ ε)) (acc : List (List Char)) (last : Option σ),
    execute_all_go w stop mn (pre ++ s :: post) acc last =
      execute_all_go w stop mn (pre ++ post) acc last := by
  intro pre
  induction pre with
  | nil =>
    intro post acc last
    simp only [List.nil_append, execute_all_go, hs]
  | cons t pre ih =>
    intro post acc last
    cases ht : t w with
    | error e2 =>
      simp only [List.cons_append, execute_all_go, ht]
      exact ih post acc last
    | ok val =>
      obtain ⟨cats, soup⟩ := val
      simp only [List.cons_append, execute_all_go, ht]
      by_cases hc : cats = []
      · simp only [if_pos hc]
        exact ih post acc _
      · simp only [if_neg hc]
        by_cases hb : (stop && decide (mn ≤ ((pySetUpdate acc cats).length : Int))) = true
        · simp only [if_pos hb]
        · simp only [if_neg hb]
          exact ih post _ _

theorem execute_go_early_stop {σ ε : Type} {w : List Char} {mn : Int} :
    ∀ (pre post : List (Strategy σ ε)) (acc : List (List Char)) (last : Option σ),
      ((acc.length : Int) < mn) →
      mn ≤ (((execute_all_go w true mn pre acc last).1.length : Int)) →
      execute_all_go w true mn (pre ++ post) acc last =
        execute_all_go w true mn pre acc last := by
  intro pre
  induction pre with
  | nil =>
    intro post acc last hlt hge
    simp only [execute_all_go] at hge
    exact absurd hge (not_le.mpr hlt)
  | cons t pre ih =>
    intro post acc last hlt hge
    cases ht : t w with
    | error e2 =>
      simp only [execute_all_go, ht] at hge ⊢
      exact ih post acc last hlt hge
    | ok val =>
      obtain ⟨cats, soup⟩ := val
      simp only [execute_all_go, ht] at hge ⊢
      by_cases hc : cats = []
      · simp only [if_pos hc] at hge ⊢
        exact ih post acc _ hlt hge
      · simp only [if_neg hc] at hge ⊢
        by_cases hb : mn ≤ ((pySetUpdate acc cats).length : Int)
        · simp only [Bool.true_and, decide_eq_true hb, if_pos] at hge ⊢
        · have hb2 : (true && decide (mn ≤ ((pySetUpdate acc cats).length : Int))) = false := by
            simp [hb]
          simp only [hb2, Bool.false_eq_true, if_false] at hge ⊢
          exact ih post _ _ (by omega) hge

theorem execute_go_sound {σ ε : Type} {w : List Char} {stop : Bool} {mn : Int} :
    ∀ (strats : List (Strategy σ ε)) (acc : List (List Char)) (last : Option σ)
      (u : List Char), u ∈ (execute_all_go w stop mn strats acc last).1 →
      u ∈ acc ∨ ∃ st ∈ strats, ∃ cats soup, st w = .ok (cats, soup) ∧ u ∈ cats := by
  intro strats
  induction strats with
  | nil =>
    intro acc last u h
    exact Or.inl (by simpa [execute_all_go] using h)
  | cons t rest ih =>
    intro acc last u h
    have lift : (∃ st ∈ rest, ∃ cats soup, st w = .ok (cats, soup) ∧ u ∈ cats) →
        ∃ st ∈ t :: rest, ∃ cats soup, st w = .ok (cats, soup) ∧ u ∈ cats := by
      rintro ⟨st, hst, cats, soup, hok, hu⟩
      exact ⟨st, List.mem_cons_of_mem _ hst, cats, soup, hok, hu⟩
    cases ht : t w with
    | error e2 =>
      simp only [execute_all_go, ht] at h
      rcases ih acc _ u h with h1 | h1
      · exact Or.inl h1
      · exact Or.inr (lift h1)
    | ok val =>
      obtain ⟨cats, soup⟩ := val
      simp only [execute_all_go, ht] at h
      by_cases hc : cats = []
      · simp only [if_pos hc] at h
        rcases ih acc _ u h with h1 | h1
        · exact Or.inl h1
        · exact Or.inr (lift h1)
      · simp only [if_neg hc] at h
        have head : u ∈ pySetUpdate acc cats →
            u ∈ acc ∨ ∃ st ∈ t :: rest, ∃ cats2 soup2, st w = .ok (cats2, soup2) ∧ u ∈ cats2 := by
          intro hu
          rcases mem_pySetUpdate hu with h2 | h2
          · exact Or.inl h2
          · exact Or.inr ⟨t, List.mem_cons_self t rest, cats, soup, ht, h2⟩
        by_cases hb : (stop && decide (mn ≤ ((pySetUpdate acc cats).length : Int))) = true
        · rw [if_pos hb] at h
          exact head h
        · rw [if_neg hb] at h
          rcases ih _ _ u h with h1 | h1
          · exact head h1
          · exact Or.inr (lift h1)

/-- C9: `execute_all` accumulates each strategy's catalog URLs into a
running set, in list (priority) order; an erroring strategy is simply
skipped (its exception is caught, the loop proceeds, `execute_all`
itself never raises); with `stop_on_success` and a positive
`min_catalogs` threshold the loop stops as soon as the set reaches the
threshold, never invoking the remaining strategies; and every returned
URL was produced by some strategy in the list. -/
theorem c9_execute_all_spec {σ ε : Type} :
    (∀ (pre post : List (Strategy σ ε)) (s : Strategy σ ε) (w : List Char)
       (stop : Bool) (mn : Int) (e : ε), s w = .error e →
       execute_all (pre ++ s :: post) w stop mn = execute_all (pre ++ post) w stop mn) ∧
    (∀ (pre post : List (Strategy σ ε)) (w : List Char) (mn : Int), 1 ≤ mn →
       mn ≤ (((execute_all pre w true mn).1.length : Int)) →
       execute_all (pre ++ post) w true mn = execute_all pre w true mn) ∧
    (∀ (strats : List (Strategy σ ε)) (w : List Char) (stop : Bool) (mn : Int)
       (u : List Char), u ∈ (execute_all strats w stop mn).1 →
       ∃ st ∈ strats, ∃ cats soup, st w = .ok (cats, soup) ∧ u ∈ cats) := by
  refine ⟨fun pre post s w stop mn e hs => ?_, fun pre post w mn hmn hge => ?_,
    fun strats w stop mn u hu => ?_⟩
  · exact execute_go_error_skip hs pre post [] none
  · exact execute_go_early_stop pre post [] none (by simpa using hmn) hge
  · rcases execute_go_sound strats [] none u hu with h1 | h1
    · exact absurd h1 (List.not_mem_nil u)
    · exact h1

/-- C9 witness: a raising strategy ahead of a succeeding one is
skipped, and once the single-catalog threshold is hit a trailing
strategy is never consulted. -/
theorem c9_execute_all_spec_witness :
    execute_all [c9_err, c9_ok] "w".data true 1 = execute_all [c9_ok] "w".data true 1 ∧
    execute_all [c9_ok, c9_err] "w".data true 1 = execute_all [c9_ok] "w".data true 1 :=
  ⟨c9_execute_all_spec.1 [] [c9_ok] c9_err "w".data true 1 () rfl,
   c9_execute_all_spec.2.1 [c9_ok] [c9_err] "w".data 1 (by decide) (by decide)⟩

/-! ## Lemmas for the phone pipeline -/

theorem phone_accept_step_cases (faxCtx : List Char → Bool)
    (st : List (List Char) × List (List Char)) (m : List Char) :
    (phone_accept_step faxCtx st m).2 = st.2 ∨
    ((phone_accept_step faxCtx st m).2 = st.2 ++ [format_phone m] ∧
      10 ≤ ((format_phone m).filter isAsciiDigit).length ∧
      ((format_phone m).filter isAsciiDigit).length ≤ 14 ∧
      invalid_start ((format_phone m).filter isAsciiDigit)
        (((format_phone m).filter isAsciiDigit).drop
          (((format_phone m).filter isAsciiDigit).length - 10)) = false ∧
      reject_area ((format_phone m).filter isAsciiDigit) = false) := by
  simp only [phone_accept_step]
  by_cases h1 : format_phone m = []
  · rw [if_pos h1]
    exact Or.inl rfl
  rw [if_neg h1]
  by_cases h2 : ((format_phone m).filter isAsciiDigit).length < 10
  · rw [if_pos h2]
    exact Or.inl rfl
  rw [if_neg h2]
  by_cases h3 : 14 < ((format_phone m).filter isAsciiDigit).length
  · rw [if_pos h3]
    exact Or.inl rfl
  rw [if_neg h3]
  by_cases h4 : st.1.contains (((format_phone m).filter isAsciiDigit).drop
      (((format_phone m).filter isAsciiDigit).length - 10)) = true
  · rw [if_pos h4]
    exact Or.inl rfl
  rw [if_neg h4]
  by_cases h5 : invalid_start ((format_phone m).filter isAsciiDigit)
      (((format_phone m).filter isAsciiDigit).drop
        (((format_phone m).filter isAsciiDigit).length - 10)) = true
  · rw [if_pos h5]
    exact Or.inl rfl
  rw [if_neg h5]
  by_cases h6 : reject_area ((format_phone m).filter isAsciiDigit) = true
  · rw [if_pos h6]
    exact Or.inl rfl
  rw [if_neg h6]
  by_cases h7 : faxCtx m = true
  · rw [if_pos h7]
    exact Or.inl rfl
  rw [if_neg h7]
  refine Or.inr ⟨rfl, by omega, by omega, ?_, ?_⟩
  · revert h5
    cases invalid_start ((format_phone m).filter isAsciiDigit)
        (((format_phone m).filter isAsciiDigit).drop
          (((format_phone m).filter isAsciiDigit).length - 10)) <;> simp
  · revert h6
    cases reject_area ((format_phone m).filter isAsciiDigit) <;> simp

theorem find_phones_aux (faxCtx : List Char → Bool) :
    ∀ (ms : List (List Char)) (st : List (List Char) × List (List Char)) (p : List Char),
      p ∈ (ms.foldl (phone_accept_step faxCtx) st).2 →
      p ∈ st.2 ∨ ∃ m ∈ ms, p = format_phone m ∧
        10 ≤ ((format_phone m).filter isAsciiDigit).length ∧
        ((format_phone m).filter isAsciiDigit).length ≤ 14 ∧
        invalid_start ((format_phone m).filter isAsciiDigit)
          (((format_phone m).filter isAsciiDigit).drop
            (((format_phone m).filter isAsciiDigit).length - 10)) = false ∧
        reject_area ((format_phone m).filter isAsciiDigit) = false := by
  intro ms
  induction ms with
  | nil => exact fun st p h => Or.inl h
  | cons m ms ih =>
    intro st p h
    rw [List.foldl_cons] at h
    rcases ih (phone_accept_step faxCtx st m) p h with h1 | ⟨m2, hm2, hrest⟩
    · rcases phone_accept_step_cases faxCtx st m with hc | ⟨hc, g1, g2, g3, g4⟩
      · rw [hc] at h1
        exact Or.inl h1
      · rw [hc] at h1
        rcases List.mem_append.mp h1 with h2 | h2
        · exact Or.inl h2
        · exact Or.inr ⟨m, List.mem_cons_self m ms, List.mem_singleton.mp h2, g1, g2, g3, g4⟩
    · exact Or.inr ⟨m2, List.mem_cons_of_mem m hm2, hrest⟩

theorem pyStartswith_iff {s pre : List Char} : pyStartswith s pre = true ↔ pre <+: s := by
  simp [pyStartswith]

/-- C5 counterexample: on the page text `"(0212) 345 67 89 12"` the
pattern list yields these three matches; the pbx-extension match is
accepted into the accumulator as the raw digit string
`0212345678912`, which is not in canonical `+90 XXX XXX XX XX`
form. -/
theorem c5_counterexample :
    find_phones_in_text [c5_m1, c5_m2, c5_m3] (fun _ => false) =
      ["+90 212 345 67 89".data, c5_raw] ∧
    isCanonicalPhone c5_raw = false :=
  ⟨by decide, by decide⟩

/-- C5 amended: every phone accepted into the accumulator of
`_find_phones_in_text` is the formatter's output on some match and
passes the gates: 10-14 digits after stripping, no known-invalid
digit prefix (on the digit string or its last 10 digits), and an
extracted area code outside the valid set forces digit length 10, 11
or 12.  Prefix normalization happens inside `format_phone`
(`0090…` becomes `+990…` by the source's `'+9' + cleaned[2:]`; `90`
with 12 digits, `0` with 11 digits and bare 10 digits become
`+90…`), and only a normalized 13-character `+90` string is rendered
canonically — other survivors are accumulated as the cleaned string
itself. -/
theorem c5_phone_gates (ms : List (List Char)) (faxCtx : List Char → Bool) :
    ∀ p ∈ find_phones_in_text ms faxCtx, phone_gate_spec ms p := by
  intro p hp
  rcases find_phones_aux faxCtx ms ([], []) p hp with h | ⟨m, hm, hpm, g1, g2, g3, g4⟩
  · exact absurd h (List.not_mem_nil p)
  · refine ⟨m, hm, hpm, ?_, ?_, ?_⟩
    · rw [hpm]
      exact ⟨g1, g2⟩
    · rw [hpm]
      intro inv hinv
      have hfa : (pyStartswith ((format_phone m).filter isAsciiDigit) inv ||
          pyStartswith (((format_phone m).filter isAsciiDigit).drop
            (((format_phone m).filter isAsciiDigit).length - 10)) inv) = false := by
        by_contra hne
        have hor : (pyStartswith ((format_phone m).filter isAsciiDigit) inv ||
            pyStartswith (((format_phone m).filter isAsciiDigit).drop
              (((format_phone m).filter isAsciiDigit).length - 10)) inv) = true := by
          revert hne
          cases pyStartswith ((format_phone m).filter isAsciiDigit) inv <;>
            cases pyStartswith (((format_phone m).filter isAsciiDigit).drop
              (((format_phone m).filter isAsciiDigit).length - 10)) inv <;> simp
        have : invalid_start ((format_phone m).filter isAsciiDigit)
            (((format_phone m).filter isAsciiDigit).drop
              (((format_phone m).filter isAsciiDigit).length - 10)) = true :=
          List.any_eq_true.mpr ⟨inv, hinv, hor⟩
        rw [g3] at this
        exact Bool.noConfusion this
      rw [Bool.or_eq_false_iff] at hfa
      constructor
      · intro hcon
        have := pyStartswith_iff.mpr hcon
        rw [hfa.1] at this
        exact Bool.noConfusion this
      · intro hcon
        have := pyStartswith_iff.mpr hcon
        rw [hfa.2] at this
        exact Bool.noConfusion this
    · rw [hpm]
      intro ac hac
      rw [reject_area, hac] at g4
      simp only [Bool.and_eq_false_iff] at g4
      rcases g4 with g4 | g4
      · left
        have : VALID_AREA_CODES.contains ac = true := by
          revert g4
          cases hvc : VALID_AREA_CODES.contains ac <;> simp
        exact List.elem_iff.mp this
      · right
        revert g4
        simp
        omega

/-- C5 witness: the canonical phone harvested from the pbx page text
satisfies the gate specification. -/
theorem c5_phone_gates_witness :
    phone_gate_spec [c5_m1, c5_m2, c5_m3] "+90 212 345 67 89".data :=
  c5_phone_gates [c5_m1, c5_m2, c5_m3] (fun _ => false) "+90 212 345 67 89".data (by decide)

/-! ## Lemmas for the catalog link extractor -/

theorem filter_orderedInsert (x : Cand) (sc : Int) :
    ∀ l : List Cand,
      (List.orderedInsert candGE x l).filter (fun c => c.2.1 = sc) =
        if x.2.1 = sc then x :: l.filter (fun c => c.2.1 = sc)
        else l.filter (fun c => c.2.1 = sc) := by
  intro l
  induction l with
  | nil => simp [List.orderedInsert, List.filter_cons]
  | cons y ys ih =>
    by_cases hxy : candGE x y
    · by_cases hx : x.2.1 = sc <;>
        simp [List.orderedInsert, hxy, List.filter_cons, hx]
    · have hstep : List.orderedInsert candGE x (y :: ys) =
          y :: List.orderedInsert candGE x ys := by
        simp [List.orderedInsert, hxy]
      rw [hstep]
      by_cases hx : x.2.1 = sc
      · have hy : ¬ y.2.1 = sc := by
          intro hy
          exact hxy (by simp [candGE, hx, hy])
        simp [List.filter_cons, hx, hy, ih]
      · by_cases hy : y.2.1 = sc <;> simp [List.filter_cons, hx, hy, ih]

theorem pySortDesc_stable (l : List Cand) (sc : Int) :
    (pySortDesc l).filter (fun c => c.2.1 = sc) = l.filter (fun c => c.2.1 = sc) := by
  induction l with
  | nil => rfl
  | cons x xs ih =>
    simp only [pySortDesc, List.insertionSort] at ih ⊢
    rw [filter_orderedInsert]
    by_cases hx : x.2.1 = sc <;> simp [List.filter_cons, hx, ih]

theorem dedupCands_sublist : ∀ (seen : List (List Char)) (l : List Cand),
    List.Sublist (dedupCands seen l) l := by
  intro seen l
  induction l generalizing seen with
  | nil => exact List.Sublist.refl []
  | cons c rest ih =>
    rw [dedupCands]
    by_cases hc : seen.contains (normalized_url c.1) = true
    · rw [if_pos hc]
      exact (ih seen).cons c
    · rw [if_neg hc]
      exact (ih (normalized_url c.1 :: seen)).cons₂ c

theorem dedupCands_not_mem_seen : ∀ (seen : List (List Char)) (l : List Cand),
    ∀ c ∈ dedupCands seen l, normalized_url c.1 ∉ seen := by
  intro seen l
  induction l generalizing seen with
  | nil => intro c hc; exact absurd hc (List.not_mem_nil c)
  | cons x rest ih =>
    intro c hc
    rw [dedupCands] at hc
    by_cases hx : seen.contains (normalized_url x.1) = true
    · rw [if_pos hx] at hc
      exact ih seen c hc
    · rw [if_neg hx] at hc
      rcases List.mem_cons.mp hc with h1 | h1
      · subst h1
        intro hmem
        exact hx (List.elem_iff.mpr hmem)
      · intro hmem
        exact ih (normalized_url x.1 :: seen) c h1 (List.mem_cons_of_mem _ hmem)

theorem dedupCands_pairwise_keys : ∀ (seen : List (List Char)) (l : List Cand),
    (dedupCands seen l).Pairwise (fun a b => normalized_url a.1 ≠ normalized_url b.1) := by
  intro seen l
  induction l generalizing seen with
  | nil => exact List.Pairwise.nil
  | cons x rest ih =>
    rw [dedupCands]
    by_cases hx : seen.contains (normalized_url x.1) = true
    · rw [if_pos hx]
      exact ih seen
    · rw [if_neg hx]
      refine List.Pairwise.cons (fun b hb => ?_) (ih (normalized_url x.1 :: seen))
      have := dedupCands_not_mem_seen (normalized_url x.1 :: seen) rest b hb
      intro heq
      exact this (by rw [← heq]; exact List.mem_cons_self _ _)

theorem dedupCands_represents : ∀ (l : List Cand) (seen : List (List Char)),
    l.Pairwise candGE →
    ∀ c ∈ l, normalized_url c.1 ∉ seen →
      ∃ k ∈ dedupCands seen l,
        normalized_url k.1 = normalized_url c.1 ∧ c.2.1 ≤ k.2.1 := by
  intro l
  induction l with
  | nil => intro seen _ c hc; exact absurd hc (List.not_mem_nil c)
  | cons x xs ih =>
    intro seen hl c hc hseen
    obtain ⟨hx, hxs⟩ := List.pairwise_cons.mp hl
    rw [dedupCands]
    by_cases hcont : seen.contains (normalized_url x.1) = true
    · rw [if_pos hcont]
      rcases List.mem_cons.mp hc with h1 | h1
      · subst h1
        exact absurd (List.elem_iff.mp hcont) hseen
      · exact ih seen hxs c h1 hseen
    · rw [if_neg hcont]
      rcases List.mem_cons.mp hc with h1 | h1
      · subst h1
        exact ⟨c, List.mem_cons_self _ _, rfl, le_refl _⟩
      · by_cases hkey : normalized_url c.1 = normalized_url x.1
        · exact ⟨x, List.mem_cons_self _ _, hkey.symm, hx c h1⟩
        · obtain ⟨k, hk, hkeq, hkle⟩ := ih (normalized_url x.1 :: seen) hxs c h1
            (by
              intro hmem
              rcases List.mem_cons.mp hmem with h2 | h2
              · exact hkey h2
              · exact hseen h2)
          exact ⟨k, List.mem_cons_of_mem _ hk, hkeq, hkle⟩

/-- C7: the link extractor filters the candidate stream through the
classifier, stable-sorts the survivors by score descending (equal
scores keep first-seen order), deduplicates by normalized URL (query
string and trailing slash stripped) keeping the highest-ranked
instance, and — being a pure function of its input — returns the same
ordered list when run twice on the same document. -/
theorem c7_extract_links_spec (stream : List (List Char × List Char)) :
    extract_catalog_links stream =
      (dedupCands [] (pySortDesc (stream.foldl add_candidate []))).map (·.1) ∧
    List.Pairwise candGE (dedupCands [] (pySortDesc (stream.foldl add_candidate []))) ∧
    (∀ sc : Int,
      (pySortDesc (stream.foldl add_candidate [])).filter (fun c => c.2.1 = sc) =
        (stream.foldl add_candidate []).filter (fun c => c.2.1 = sc)) ∧
    List.Perm (pySortDesc (stream.foldl add_candidate []))
      (stream.foldl add_candidate []) ∧
    List.Pairwise (fun a b : Cand => normalized_url a.1 ≠ normalized_url b.1)
      (dedupCands [] (pySortDesc (stream.foldl add_candidate []))) ∧
    (∀ c ∈ stream.foldl add_candidate [],
      ∃ k ∈ dedupCands [] (pySortDesc (stream.foldl add_candidate [])),
        normalized_url k.1 = normalized_url c.1 ∧ c.2.1 ≤ k.2.1 ∧
        k.1 ∈ extract_catalog_links stream) ∧
    extract_catalog_links stream = extract_catalog_links stream := by
  have hsorted : List.Pairwise candGE (pySortDesc (stream.foldl add_candidate [])) :=
    List.sorted_insertionSort candGE (stream.foldl add_candidate [])
  refine ⟨rfl, ?_, pySortDesc_stable _, List.perm_insertionSort candGE _, ?_, ?_, rfl⟩
  · exact List.Pairwise.sublist (dedupCands_sublist [] _) hsorted
  · exact dedupCands_pairwise_keys [] _
  · intro c hc
    have hc2 : c ∈ pySortDesc (stream.foldl add_candidate []) :=
      ((List.perm_insertionSort candGE _).mem_iff).mpr hc
    obtain ⟨k, hk, hkeq, hkle⟩ :=
      dedupCands_represents _ [] hsorted c hc2 (List.not_mem_nil _)
    exact ⟨k, hk, hkeq, hkle, List.mem_map_of_mem _ hk⟩

/-- C7 witness: in a stream with two spellings of the same catalog
URL, the lower-scored survivor is represented in the output by the
retained higher-scored instance. -/
theorem c7_extract_links_spec_witness :
    ∃ k ∈ dedupCands [] (pySortDesc (c7_stream.foldl add_candidate [])),
      normalized_url k.1 = normalized_url "https://a.com/k.pdf".data ∧
      (50 : Int) ≤ k.2.1 ∧ k.1 ∈ extract_catalog_links c7_stream :=
  (c7_extract_links_spec c7_stream).2.2.2.2.2.1
    ("https://a.com/k.pdf".data, 50, []) (by decide)

end Scraper
